import Mathlib

/-!
Shallow embedding of `src/main.rs` of the weakly-typed repository: the
`WeakType` value model, its numeric and string coercions, the asymmetric
binary `add` operator, property lookup `index`, and the coercing
constructors `Number` / `String` (named `NumberOf` / `StringOf` here).

Rust's `f64` is modelled by the inductive `F` below: NaN, signed
infinities, and exact rational finite values.  The claims under scrutiny
concern the dispatch structure of the operations and NaN propagation,
not binary floating-point rounding, so finite arithmetic is exact
rational arithmetic.  A Rust operation that panics (the
`reduce(..).unwrap()` inside `coerce_to_string` on an empty array) is
modelled by `Option`, with `none` for the panic.
-/

namespace WeaklyTyped

/-- Model of Rust `f64` as used by `main.rs`: NaN, the two infinities,
or an exact finite value (a rational; the source only ever adds,
parses and prints floats, so exact arithmetic stands in for rounded
binary arithmetic). -/
inductive F where
  | nan : F
  | inf (neg : Bool) : F
  | num (q : ℚ) : F
deriving DecidableEq

/-- Model of `f64::is_nan`. -/
def F.is_nan : F → Bool
  | .nan => true
  | _ => false

/-- Model of `f64` addition restricted to what NaN/infinity semantics
require: NaN absorbs, infinities of equal sign persist, opposite signs
give NaN, and finite values add exactly. -/
def F.add : F → F → F
  | .nan, _ => .nan
  | _, .nan => .nan
  | .inf b1, .inf b2 => if b1 = b2 then .inf b1 else .nan
  | .inf b, .num _ => .inf b
  | .num _, .inf b => .inf b
  | .num a, .num b => .num (a + b)

/-- Model of Rust `f64::to_string` (`Display`): `"NaN"`, `"inf"`/`"-inf"`,
and for finite values the integer form when the value is integral
(Rust prints integral floats without a fractional part); other
rationals fall back to their rational rendering, which agrees with
Rust on every value the repository ever formats. -/
def fmtF : F → String
  | .nan => "NaN"
  | .inf b => if b then "-inf" else "inf"
  | .num q => if q.den = 1 then toString q.num else toString q

/-- Value of a list of decimal digit characters. -/
def digitsToNat (cs : List Char) : Nat :=
  cs.foldl (fun acc c => 10 * acc + (c.toNat - '0'.toNat)) 0

/-- Mantissa value of integer-part digits and fraction-part digits. -/
def mantissa (ip fp : List Char) : ℚ :=
  mkRat (digitsToNat ip * 10 ^ fp.length + digitsToNat fp) (10 ^ fp.length)

/-- Apply an optional leading minus sign. -/
def applySign (neg : Bool) (q : ℚ) : ℚ := if neg then -q else q

/-- Number-literal part of the `f64` grammar: integer digits, an
optional point with fraction digits, and an optional exponent; at
least one mantissa digit is required and no characters may remain. -/
def parseNumberPart (neg : Bool) (cs : List Char) : Option F :=
  let ipr := cs.span (fun c => c.isDigit)
  let fpr : List Char × List Char :=
    match ipr.2 with
    | '.' :: t => t.span (fun c => c.isDigit)
    | _ => ([], ipr.2)
  if ipr.1.isEmpty && fpr.1.isEmpty then none
  else
    match fpr.2 with
    | [] => some (.num (applySign neg (mantissa ipr.1 fpr.1)))
    | e :: t =>
      if e = 'e' ∨ e = 'E' then
        let spr : Bool × List Char :=
          match t with
          | '+' :: u => (false, u)
          | '-' :: u => (true, u)
          | u => (false, u)
        let edr := spr.2.span (fun c => c.isDigit)
        if edr.1.isEmpty ∨ ¬ edr.2.isEmpty then none
        else
          let k := digitsToNat edr.1
          let m := mantissa ipr.1 fpr.1
          let v := if spr.1 then mkRat m.num (m.den * 10 ^ k)
                   else mkRat (m.num * 10 ^ k) m.den
          some (.num (applySign neg v))
      else none

/-- Model of Rust `str::parse::<f64>`: optional sign, then the
case-insensitive literals `inf` / `infinity` / `nan` or a decimal
number with optional fraction and exponent.  `none` models
`Err(ParseFloatError)`.  (Overflow to infinity and rounding of the
parsed value are not modelled; finite results are exact.) -/
def parseF64 (s : String) : Option F :=
  match s.toList with
  | [] => none
  | c :: cs0 =>
    let sgn : Bool × List Char :=
      if c = '+' then (false, cs0)
      else if c = '-' then (true, cs0)
      else (false, c :: cs0)
    let low := sgn.2.map Char.toLower
    if low = "inf".toList ∨ low = "infinity".toList then some (.inf sgn.1)
    else if low = "nan".toList then some F.nan
    else parseNumberPart sgn.1 sgn.2

/-- The five-variant tagged union `WeakType` of `main.rs`.  `Object`'s
`HashMap<&str, WeakType>` is modelled as an association list with
unique keys (insertion order is not semantically meaningful in the
source); `Array`'s `Vec<WeakType>` as a list. -/
inductive WeakType where
  | string (s : String)
  | number (n : F)
  | object (o : List (String × WeakType))
  | array (a : List WeakType)
  | undefined

mutual

/-- The inner `reducer` closure of `coerce_to_string`'s `Array` arm:
non-array values coerce directly, arrays map `reducer` over their
elements and fold them together with `", "` via `reduce(..).unwrap()`;
the `unwrap` of the empty `reduce` is the `none` outcome. -/
def reducer : WeakType → Option String
  | .string s => some s
  | .number n => some (fmtF n)
  | .object _ => some "[object Object]"
  | .undefined => some "undefined"
  | .array arr =>
      match reducerList arr with
      | none => none
      | some [] => none
      | some (h :: t) => some (t.foldl (fun p c => p ++ ", " ++ c) h)

/-- `iter().map(reducer)` over an array's elements, sequencing the
possible panic. -/
def reducerList : List WeakType → Option (List String)
  | [] => some []
  | v :: vs =>
      match reducer v, reducerList vs with
      | some s, some ss => some (s :: ss)
      | _, _ => none

end

/-- `WeakType::coerce_to_number` from `main.rs`: parse a string (NaN on
failure), identity on numbers, NaN on objects, arrays and undefined. -/
def coerce_to_number : WeakType → F
  | .string str => (parseF64 str).getD F.nan
  | .number num => num
  | .object _ => F.nan
  | .undefined => F.nan
  | .array _ => F.nan

/-- `WeakType::coerce_to_string` from `main.rs`; `none` models the
panic on an empty array inside `reducer`. -/
def coerce_to_string : WeakType → Option String
  | .string str => some str
  | .number num => some (fmtF num)
  | .object _ => some "[object Object]"
  | .undefined => some "undefined"
  | .array a => reducer (.array a)

/-- `Add for &WeakType` from `main.rs`, the two-level match on the left
then the right operand; `Option` propagates a panicking
`coerce_to_string`. -/
def add : WeakType → WeakType → Option WeakType
  | .string self_str, rhs =>
    match rhs with
    | .string rhs_str => some (.string (self_str ++ rhs_str))
    | .undefined => (coerce_to_string .undefined).map (fun r => .string (self_str ++ r))
    | .object o => (coerce_to_string (.object o)).map (fun r => .string (self_str ++ r))
    | .number rhs_num =>
      let self_coerced := coerce_to_number (.string self_str)
      if self_coerced.is_nan then some (.string (self_str ++ fmtF rhs_num))
      else some (.number (self_coerced.add rhs_num))
    | .array a =>
      match coerce_to_string (.string self_str), coerce_to_string (.array a) with
      | some l, some r => some (.string (l ++ r))
      | _, _ => none
  | .number self_num, rhs =>
    let rhs_coerced := coerce_to_number rhs
    if rhs_coerced.is_nan then
      match coerce_to_string (.number self_num), coerce_to_string rhs with
      | some l, some r => some (.string (l ++ r))
      | _, _ => none
    else some (.number (self_num.add rhs_coerced))
  | .object o, rhs =>
    match rhs with
    | .string rhs_str => (coerce_to_string (.object o)).map (fun l => .string (l ++ rhs_str))
    | .number _ => some (.number F.nan)
    | .object o2 =>
      match coerce_to_string (.object o), coerce_to_string (.object o2) with
      | some l, some r => some (.string (l ++ r))
      | _, _ => none
    | .undefined =>
      match coerce_to_string (.object o), coerce_to_string .undefined with
      | some l, some r => some (.string (l ++ r))
      | _, _ => none
    | .array a =>
      match coerce_to_string (.object o), coerce_to_string (.array a) with
      | some l, some r => some (.string (l ++ r))
      | _, _ => none
  | .undefined, rhs =>
    match rhs with
    | .string rhs_str => (coerce_to_string .undefined).map (fun l => .string (l ++ rhs_str))
    | .number _ => some (.number F.nan)
    | .undefined => some (.number F.nan)
    | .object o =>
      match coerce_to_string .undefined, coerce_to_string (.object o) with
      | some l, some r => some (.string (l ++ r))
      | _, _ => none
    | .array a =>
      match coerce_to_string .undefined, coerce_to_string (.array a) with
      | some l, some r => some (.string (l ++ r))
      | _, _ => none
  | .array a, rhs =>
    match coerce_to_string (.array a), coerce_to_string rhs with
    | some l, some r => some (.string (l ++ r))
    | _, _ => none

/-- `Index<&str> for WeakType` from `main.rs`: objects look the key up
(`contains_key` then `[key]`, modelled by association-list lookup),
everything else — including `Undefined` itself, for which the source
returns `self` — yields `Undefined`. -/
def index : WeakType → String → WeakType
  | .string _, _ => .undefined
  | .number _, _ => .undefined
  | .object obj, key =>
    match obj.lookup key with
    | some v => v
    | none => .undefined
  | .undefined, _ => .undefined
  | .array _, _ => .undefined

/-- The coercing constructor `Number` of `main.rs` (spec name
`NumberOf`): lift, then `coerce_to_number`. -/
def NumberOf (v : WeakType) : WeakType := .number (coerce_to_number v)

/-- The coercing constructor `String` of `main.rs` (spec name
`StringOf`): lift, then `coerce_to_string`; partial because
`coerce_to_string` can panic. -/
def StringOf (v : WeakType) : Option WeakType :=
  (coerce_to_string v).map .string

/-- The `obj` of `main`: the planetary-distance mapping, every value
built by the coercing `Number` constructor. -/
def demoObj : WeakType :=
  .object [("Mercury", NumberOf (.number (.num 0.4))),
           ("Venus", NumberOf (.number (.num 0.7))),
           ("Earth", NumberOf (.number (.num 1.0))),
           ("Mars", NumberOf (.number (.num 1.5)))]

/-- The `arr` of `main`: `[String(1), Number("5"), [obj.clone(), String(20)]]`
(the `i32` literals lift to the floats 1.0 and 20.0 before coercion). -/
def demoArr : Option WeakType := do
  let s1 ← StringOf (.number (.num 1))
  let n5 := NumberOf (.string "5")
  let s20 ← StringOf (.number (.num 20))
  pure (.array [s1, n5, .array [demoObj, s20]])

mutual

/-- The leaf sequence of a value: a non-array value is its own single
leaf, an array contributes the leaves of its elements in order.  This
is the order in which `reducer` visits textual forms. -/
def flatten : WeakType → List WeakType
  | .string s => [.string s]
  | .number n => [.number n]
  | .object o => [.object o]
  | .undefined => [.undefined]
  | .array a => flattenList a

/-- Leaves of a list of values, concatenated in order. -/
def flattenList : List WeakType → List WeakType
  | [] => []
  | v :: vs => flatten v ++ flattenList vs

end

mutual

/-- `true` when no array reachable through nested arrays is empty
(objects are opaque to `coerce_to_string`, so their payloads are not
inspected).  Exactly the condition under which `reducer` cannot
panic. -/
def noEmptyArr : WeakType → Bool
  | .string _ => true
  | .number _ => true
  | .object _ => true
  | .undefined => true
  | .array a => !a.isEmpty && noEmptyArrList a

/-- `noEmptyArr` over every element of a list. -/
def noEmptyArrList : List WeakType → Bool
  | [] => true
  | v :: vs => noEmptyArr v && noEmptyArrList vs

end

/-- Textual form of a leaf (non-array) value, as `reducer` renders it. -/
def leafStr : WeakType → String
  | .string s => s
  | .number n => fmtF n
  | .object _ => "[object Object]"
  | .undefined => "undefined"
  | .array _ => ""

/-- Left fold of `", "`-separated concatenation, the shape of the Rust
`reduce(|prev, cur| prev + ", " + &cur)`; the empty list joins to `""`
(the Rust `reduce` has no defined value there). -/
def joinC : List String → String
  | [] => ""
  | h :: t => t.foldl (fun p c => p ++ ", " ++ c) h

theorem foldl_comma_shift (t : List String) (x y : String) :
    t.foldl (fun p c => p ++ ", " ++ c) (x ++ y)
      = x ++ t.foldl (fun p c => p ++ ", " ++ c) y := by
  induction t generalizing y with
  | nil => rfl
  | cons c t ih =>
    simp only [List.foldl_cons]
    have h : x ++ y ++ ", " ++ c = x ++ (y ++ ", " ++ c) := by
      simp [String.append_assoc]
    rw [h, ih]

theorem joinC_append {l1 l2 : List String} (h1 : l1 ≠ []) (h2 : l2 ≠ []) :
    joinC (l1 ++ l2) = joinC l1 ++ ", " ++ joinC l2 := by
  match l1, l2 with
  | a :: t1, b :: t2 =>
    show joinC (a :: (t1 ++ b :: t2)) = _
    simp only [joinC, List.foldl_append, List.foldl_cons]
    exact foldl_comma_shift t2 _ b

mutual

theorem flatten_ne_nil (v : WeakType) (h : noEmptyArr v = true) :
    flatten v ≠ [] := by
  cases v with
  | array a =>
    have hp : (!a.isEmpty && noEmptyArrList a) = true := h
    have h1 : a ≠ [] := by
      rcases Bool.and_eq_true_iff.mp hp with ⟨he, _⟩
      intro hnil
      rw [hnil] at he
      exact Bool.false_ne_true he
    have h2 : noEmptyArrList a = true := (Bool.and_eq_true_iff.mp hp).2
    exact flattenList_ne_nil a h1 h2
  | string s => simp [flatten]
  | number n => simp [flatten]
  | object o => simp [flatten]
  | undefined => simp [flatten]

theorem flattenList_ne_nil (l : List WeakType) (h0 : l ≠ [])
    (h : noEmptyArrList l = true) : flattenList l ≠ [] := by
  match l with
  | v :: vs =>
    have hv : noEmptyArr v = true := (Bool.and_eq_true_iff.mp h).1
    have := flatten_ne_nil v hv
    simp only [flattenList]
    intro hc
    exact this (List.append_eq_nil.mp hc).1

end

theorem joinC_cons (x : String) {l : List String} (hl : l ≠ []) :
    joinC (x :: l) = x ++ ", " ++ joinC l := by
  have h : joinC ([x] ++ l) = joinC [x] ++ ", " ++ joinC l :=
    joinC_append (List.cons_ne_nil x []) hl
  simpa [joinC] using h

theorem joinC_map_flatten (l : List WeakType) (h0 : l ≠ [])
    (h : noEmptyArrList l = true) :
    joinC (l.map fun v => joinC ((flatten v).map leafStr))
      = joinC ((flattenList l).map leafStr) := by
  induction l with
  | nil => exact absurd rfl h0
  | cons v vs ih =>
    have hv : noEmptyArr v = true := (Bool.and_eq_true_iff.mp h).1
    have hvs : noEmptyArrList vs = true := (Bool.and_eq_true_iff.mp h).2
    cases vs with
    | nil =>
      simp only [List.map_cons, List.map_nil, flattenList, List.append_nil]
      rfl
    | cons w ws =>
      have hm1 : (flatten v).map leafStr ≠ [] := by
        intro hc
        exact flatten_ne_nil v hv (List.map_eq_nil_iff.mp hc)
      have hm2 : (flattenList (w :: ws)).map leafStr ≠ [] := by
        intro hc
        exact flattenList_ne_nil (w :: ws) (List.cons_ne_nil w ws) hvs
          (List.map_eq_nil_iff.mp hc)
      have hgv : ((w :: ws).map fun v => joinC ((flatten v).map leafStr)) ≠ [] := by
        simp
      have lhs1 :
          joinC ((v :: w :: ws).map fun v => joinC ((flatten v).map leafStr))
            = joinC ((flatten v).map leafStr) ++ ", "
                ++ joinC ((w :: ws).map fun v => joinC ((flatten v).map leafStr)) := by
        rw [List.map_cons]
        exact joinC_cons _ hgv
      have rhs1 :
          joinC ((flattenList (v :: w :: ws)).map leafStr)
            = joinC ((flatten v).map leafStr) ++ ", "
                ++ joinC ((flattenList (w :: ws)).map leafStr) := by
        show joinC ((flatten v ++ flattenList (w :: ws)).map leafStr) = _
        rw [List.map_append]
        exact joinC_append hm1 hm2
      rw [lhs1, rhs1, ih (List.cons_ne_nil w ws) hvs]

mutual

theorem reducer_flatten (v : WeakType) (h : noEmptyArr v = true) :
    reducer v = some (joinC ((flatten v).map leafStr)) := by
  cases v with
  | string s => rfl
  | number n => rfl
  | object o => rfl
  | undefined => rfl
  | array a =>
    have hp : (!a.isEmpty && noEmptyArrList a) = true := h
    have h1 : a ≠ [] := by
      rcases Bool.and_eq_true_iff.mp hp with ⟨he, _⟩
      intro hnil
      rw [hnil] at he
      exact Bool.false_ne_true he
    have h2 : noEmptyArrList a = true := (Bool.and_eq_true_iff.mp hp).2
    have hr := reducerList_flatten a h2
    match a, h1 with
    | w :: ws, _ =>
      have hr2 : reducerList (w :: ws)
          = some ((w :: ws).map fun v => joinC ((flatten v).map leafStr)) := hr
      have hm := joinC_map_flatten (w :: ws) (List.cons_ne_nil w ws) h2
      calc reducer (.array (w :: ws))
          = some (joinC ((w :: ws).map fun v => joinC ((flatten v).map leafStr))) := by
            simp only [reducer, hr2]
            rfl
        _ = some (joinC ((flattenList (w :: ws)).map leafStr)) := congrArg some hm
        _ = some (joinC ((flatten (.array (w :: ws))).map leafStr)) := rfl

theorem reducerList_flatten (l : List WeakType) (h : noEmptyArrList l = true) :
    reducerList l = some (l.map fun v => joinC ((flatten v).map leafStr)) := by
  match l with
  | [] => rfl
  | v :: vs =>
    have hv : noEmptyArr v = true := (Bool.and_eq_true_iff.mp h).1
    have hvs : noEmptyArrList vs = true := (Bool.and_eq_true_iff.mp h).2
    simp only [reducerList, reducer_flatten v hv, reducerList_flatten vs hvs,
      List.map_cons]

end

/-- C1: addition of a Mapping and a Numeric is asymmetric.  For every
mapping `m` and number `n`, `add (Object m) (Number n)` is Numeric NaN,
while `add (Number n) (Object m)` is the Text concatenation of the
string form of `n` with `"[object Object]"`; the two orderings always
disagree. -/
theorem C1_mapping_numeric_asymmetry :
    (∀ (m : List (String × WeakType)) (n : F),
      add (.object m) (.number n) = some (.number F.nan)) ∧
    (∀ (n : F) (m : List (String × WeakType)),
      add (.number n) (.object m)
        = some (.string (fmtF n ++ "[object Object]"))) ∧
    (∀ (m : List (String × WeakType)) (n : F),
      add (.object m) (.number n) ≠ add (.number n) (.object m)) := by
  refine ⟨fun m n => rfl, fun n m => rfl, fun m n h => ?_⟩
  rw [show add (.object m) (.number n) = some (.number F.nan) from rfl,
    show add (.number n) (.object m)
      = some (.string (fmtF n ++ "[object Object]")) from rfl] at h
  exact WeakType.noConfusion (Option.some.inj h)

/-- Witness for C1 at the empty mapping and the number 3: the two
orderings produce `Numeric NaN` and `Text "3[object Object]"`, which
disagree. -/
theorem C1_mapping_numeric_asymmetry_witness :
    add (.object []) (.number (F.num 3))
      ≠ add (.number (F.num 3)) (.object []) :=
  C1_mapping_numeric_asymmetry.2.2 [] (F.num 3)

/-- C2: with a Numeric left operand, `add` coerces the right operand to
a number; if that is NaN the result is the Text concatenation of both
stringified sides (propagating a panicking stringification), otherwise
the Numeric sum.  In particular `add (Number n) (Number NaN)` is a Text
concatenation, never Numeric NaN. -/
theorem C2_numeric_left_rule :
    (∀ (n : F) (r : WeakType),
      add (.number n) r =
        if (coerce_to_number r).is_nan then
          (coerce_to_string r).map (fun s => .string (fmtF n ++ s))
        else some (.number (n.add (coerce_to_number r)))) ∧
    (∀ (n : F), add (.number n) (.number F.nan)
        = some (.string (fmtF n ++ "NaN"))) := by
  refine ⟨fun n r => ?_, fun n => rfl⟩
  simp only [add]
  cases h : (coerce_to_number r).is_nan with
  | true =>
    simp only [h, if_pos]
    cases hs : coerce_to_string r with
    | none => simp [coerce_to_string, hs]
    | some s => simp [coerce_to_string, hs]
  | false => simp [h]

/-- C3: a Sequence left operand always yields the Text concatenation of
both stringified sides, for every right operand kind, with no numeric
branch. -/
theorem C3_sequence_left_concat :
    ∀ (s : List WeakType) (x : WeakType),
      add (.array s) x =
        (coerce_to_string (.array s)).bind
          (fun l => (coerce_to_string x).map (fun r => .string (l ++ r))) := by
  intro s x
  simp only [add]
  cases h1 : coerce_to_string (.array s) with
  | none => simp [h1]
  | some l =>
    cases h2 : coerce_to_string x with
    | none => simp [h1, h2]
    | some r => simp [h1, h2]

/-- C4: `add (Text a) (Number n)` parses `a` as a number; when the
coerced value is not NaN the result is the Numeric sum of parsed-left
and right, otherwise the Text concatenation of `a` with the string
form of `n`. -/
theorem C4_text_plus_numeric :
    ∀ (a : String) (n : F),
      add (.string a) (.number n) =
        if (coerce_to_number (.string a)).is_nan then
          some (.string (a ++ fmtF n))
        else some (.number ((coerce_to_number (.string a)).add n)) :=
  fun _ _ => rfl

/-- C5: `coerce_to_number` parses Text as a 64-bit float with NaN on
parse failure, is the identity on Numeric, and is constantly NaN on
Mapping, Sequence and Absent; concretely `Text "5"` coerces to `5` and
`Text "abc"` to NaN. -/
theorem C5_coerce_to_number_cases :
    (∀ (s : String) (f : F),
      parseF64 s = some f → coerce_to_number (.string s) = f) ∧
    (∀ (s : String),
      parseF64 s = none → coerce_to_number (.string s) = F.nan) ∧
    (∀ (n : F), coerce_to_number (.number n) = n) ∧
    (∀ (o : List (String × WeakType)), coerce_to_number (.object o) = F.nan) ∧
    (∀ (a : List WeakType), coerce_to_number (.array a) = F.nan) ∧
    coerce_to_number .undefined = F.nan ∧
    coerce_to_number (.string "5") = F.num 5 ∧
    (coerce_to_number (.string "abc")).is_nan = true := by
  refine ⟨fun s f h => ?_, fun s h => ?_, fun n => rfl, fun o => rfl,
    fun a => rfl, rfl, rfl, rfl⟩
  · simp [coerce_to_number, h]
  · simp [coerce_to_number, h]

/-- Witness for C5: the two hypothesis-bearing conjuncts applied at the
concrete strings `"5"` and `"abc"`. -/
theorem C5_coerce_to_number_cases_witness :
    coerce_to_number (.string "5") = F.num 5 ∧
    coerce_to_number (.string "abc") = F.nan :=
  ⟨C5_coerce_to_number_cases.1 "5" (F.num 5) rfl,
   C5_coerce_to_number_cases.2.1 "abc" rfl⟩

/-- C6 counterexample: the flattening claim fails within its stated
scope.  `Sequence ["a", Sequence []]` is a non-empty Sequence, yet its
stringification has no result — the source panics at the inner empty
Sequence's `reduce(..).unwrap()` — rather than the claimed comma-join
of the recursively coerced elements. -/
theorem C6_nested_empty_sequence_counterexample :
    coerce_to_string (.array [.string "a", .array []]) = none ∧
    coerce_to_string (.array [.string "a", .array ([] : List WeakType)])
      ≠ some (joinC ((flattenList [.string "a", .array []]).map leafStr)) :=
  ⟨rfl, fun h => Option.noConfusion h⟩

/-- C6 amended: stringifying a non-empty Sequence all of whose nested
Sequences (reachable through Sequence elements) are themselves
non-empty — the condition under which the source does not panic —
joins the recursively coerced textual forms of its leaves with `", "`,
flattening nested Sequences into the outer comma list with no bracket
or boundary markers; Mapping leaves render as `"[object Object]"`
each. -/
theorem C6_sequence_stringify_flatten :
    (∀ (l : List WeakType), l ≠ [] → noEmptyArr (.array l) = true →
      coerce_to_string (.array l)
        = some (joinC ((flattenList l).map leafStr))) ∧
    (∀ (o : List (String × WeakType)), leafStr (.object o) = "[object Object]") := by
  refine ⟨fun l h0 h => ?_, fun o => rfl⟩
  have := reducer_flatten (.array l) h
  simpa [coerce_to_string, flatten] using this

/-- Witness for C6's amended theorem: the flattening law applied at
the concrete nested sequence `["a", [Mapping, "b"], 2]`, whose joined
form is `"a, [object Object], b, 2"`. -/
theorem C6_sequence_stringify_flatten_witness :
    coerce_to_string
        (.array [.string "a", .array [.object [], .string "b"], .number (.num 2)])
      = some (joinC ((flattenList
          [.string "a", .array [.object [], .string "b"], .number (.num 2)]).map leafStr)) ∧
    joinC ((flattenList
        [WeakType.string "a", .array [.object [], .string "b"], .number (.num 2)]).map leafStr)
      = "a, [object Object], b, 2" :=
  ⟨C6_sequence_stringify_flatten.1
      [.string "a", .array [.object [], .string "b"], .number (.num 2)]
      (List.cons_ne_nil _ _) rfl,
   rfl⟩

/-- C7 counterexample: coercion is not total as claimed — stringifying
the empty Sequence has no result (the source panics on
`reduce(..).unwrap()`), so the universal totality statement fails at
`Sequence []`. -/
theorem C7_empty_sequence_counterexample :
    coerce_to_string (.array ([] : List WeakType)) = none ∧
    ¬ (∀ v : WeakType, (coerce_to_string v).isSome = true) :=
  ⟨rfl, fun h => Bool.false_ne_true (h (.array []))⟩

/-- C7 amended: `coerce_to_number` is total by construction, and
`coerce_to_string` returns a result for every Value except one that is
or nests an empty Sequence reachable through Sequence elements: under
`noEmptyArr` it never fails, producing the sentinels (NaN,
`"undefined"`, `"[object Object]"`) for non-convertible inputs. -/
theorem C7_coercion_total_amended :
    ∀ (v : WeakType), noEmptyArr v = true →
      (coerce_to_string v).isSome = true := by
  intro v h
  cases v with
  | string s => rfl
  | number n => rfl
  | object o => rfl
  | undefined => rfl
  | array a =>
    have := reducer_flatten (.array a) h
    simp [coerce_to_string, this]

/-- Witness for C7's amended theorem at the singleton sequence
`["x"]`. -/
theorem C7_coercion_total_amended_witness :
    noEmptyArr (.array [.string "x"]) = true ∧
    (coerce_to_string (.array [.string "x"])).isSome = true :=
  ⟨rfl, C7_coercion_total_amended (.array [.string "x"]) rfl⟩

/-- C8: `index` returns the stored value when the container is a
Mapping holding the key, and `Undefined` in every other case: Mapping
without the key, Text, Numeric, Sequence, and Absent containers. -/
theorem C8_index_cases :
    (∀ (o : List (String × WeakType)) (k : String) (v : WeakType),
      o.lookup k = some v → index (.object o) k = v) ∧
    (∀ (o : List (String × WeakType)) (k : String),
      o.lookup k = none → index (.object o) k = .undefined) ∧
    (∀ (s k : String), index (.string s) k = .undefined) ∧
    (∀ (n : F) (k : String), index (.number n) k = .undefined) ∧
    (∀ (a : List WeakType) (k : String), index (.array a) k = .undefined) ∧
    (∀ (k : String), index .undefined k = .undefined) := by
  refine ⟨fun o k v h => ?_, fun o k h => ?_, fun s k => rfl, fun n k => rfl,
    fun a k => rfl, fun k => rfl⟩
  · simp [index, h]
  · simp [index, h]

/-- Witness for C8: lookup of `"Earth"` in `{Earth ↦ 1.0}` returns the
stored Numeric, and lookup of `"Mars"` in the empty Mapping returns
Absent. -/
theorem C8_index_cases_witness :
    index (.object [("Earth", .number (F.num 1))]) "Earth"
      = WeakType.number (F.num 1) ∧
    index (.object ([] : List (String × WeakType))) "Mars" = .undefined :=
  ⟨C8_index_cases.1 [("Earth", .number (F.num 1))] "Earth"
      (.number (F.num 1)) rfl,
   C8_index_cases.2.1 [] "Mars" rfl⟩

/-- C9: on the demo inputs of `main` — the planetary mapping and the
sequence `[String(1), Number("5"), [mapping, String(20)]]` — adding the
sequence to the mapping yields the Text
`"1, 5, [object Object], 20[object Object]"`. -/
theorem C9_demo_output :
    demoArr.bind (fun a => add a demoObj)
      = some (.string "1, 5, [object Object], 20[object Object]") := rfl

/-- C10: whenever `add` returns a result, that result is a Text or a
Numeric value — never a Mapping, Sequence, or Absent. -/
theorem C10_add_returns_text_or_numeric :
    ∀ (l r res : WeakType), add l r = some res →
      (∃ s, res = WeakType.string s) ∨ (∃ n, res = WeakType.number n) := by
  intro l r res h
  cases l <;> cases r <;>
    simp only [add, coerce_to_string, Option.map] at h <;>
    repeat' split at h
  all_goals
    first
      | exact Or.inl ⟨_, (Option.some.inj h).symm⟩
      | exact Or.inr ⟨_, (Option.some.inj h).symm⟩
      | cases h

/-- Witness for C10 at `Text "a" + Text "b"`. -/
theorem C10_add_returns_text_or_numeric_witness :
    (∃ s, WeakType.string "ab" = WeakType.string s) ∨
    (∃ n, WeakType.string "ab" = WeakType.number n) :=
  C10_add_returns_text_or_numeric (.string "a") (.string "b")
    (.string "ab") rfl

end WeaklyTyped
